import Mathlib

/-!
Verification of the `AalenAdditiveFitter` core
(`src/lifelines/fitters/aalen_additive_fitter.py`).

Shallow embedding of the Aalen additive-hazards fitter. Numpy arrays and
pandas series are modelled as `List ℚ` / `List (List ℚ)` (Python floats as
exact rationals); boolean masks as `List Bool`. The per-step penalized
least-squares solver `lr` (`lifelines.utils.ridge_regression`) is not part
of the sources under verification, so the fitting loop is parameterized by
an abstract `Solver`, and a concrete instance `lrModel` is modelled from
the specification for the matrix dimensions exercised here. A solver
returns `none` to model `numpy.linalg.LinAlgError`.
-/

namespace Aalen

/-- Dot product of two rational vectors (extra entries of a longer vector are
dropped, as `numpy` would refuse mismatched shapes; all uses are on
equal-length vectors). -/
def dotL : List ℚ → List ℚ → ℚ
  | [], _ => 0
  | _ :: _, [] => 0
  | x :: xs, y :: ys => x * y + dotL xs ys

/-- Elementwise sum of two rows; a missing entry counts as `0`. -/
def addRows : List ℚ → List ℚ → List ℚ
  | [], ys => ys
  | x :: xs, [] => x :: xs
  | x :: xs, y :: ys => (x + y) :: addRows xs ys

/-- Elementwise sum of two matrices (`numpy` `+` on equal shapes). -/
def addMat (A B : List (List ℚ)) : List (List ℚ) := List.zipWith addRows A B

/-- Scalar multiple of a vector. -/
def scaleVec (c : ℚ) (v : List ℚ) : List ℚ := v.map (fun x => c * x)

/-- Running column-wise cumulative sums, continuing from accumulator `acc`. -/
def cumsumFrom (acc : List ℚ) : List (List ℚ) → List (List ℚ)
  | [] => []
  | r :: rest =>
    (addRows acc r) :: cumsumFrom (addRows acc r) rest

/-- Embeds `pandas.DataFrame.cumsum()`: column-wise running sums over the rows. -/
def cumsum (M : List (List ℚ)) : List (List ℚ) := cumsumFrom [] M

/-- Boolean-mask selection `T[E]` from numpy. -/
def maskSelect : List ℚ → List Bool → List ℚ
  | [], _ => []
  | _ :: _, [] => []
  | t :: ts, e :: es => if e then t :: maskSelect ts es else maskSelect ts es

/-- Embeds `np.sort(np.unique(T[E]))` (source line 169/188): the ascending list of
distinct observed event times. -/
def uniqueDeathTimes (T : List ℚ) (E : List Bool) : List ℚ :=
  ((maskSelect T E).dedup).insertionSort (· ≤ ·)

/-- Python's `enumerate`, starting at `i`. -/
def enumFrom (i : ℕ) : List ℚ → List (ℕ × ℚ)
  | [] => []
  | x :: xs => (i, x) :: enumFrom (i + 1) xs

/-- Embeds `exits.sum()`: the number of `true` entries of a boolean mask. -/
def countTrue : List Bool → ℕ
  | [] => 0
  | b :: rest => (if b then 1 else 0) + countTrue rest

/-- The number of entries of `T` equal to `t` (the exit count of one step). -/
def countMatches (t : ℚ) : List ℚ → ℕ
  | [] => 0
  | s :: rest => (if s = t then 1 else 0) + countMatches t rest

/-- Transpose of a matrix with `d` columns (produces exactly `d` rows). -/
def transposeFuel : ℕ → List (List ℚ) → List (List ℚ)
  | 0, _ => []
  | fuel + 1, rows => (rows.map (fun r => r.headD 0)) :: transposeFuel fuel (rows.map (fun r => r.tail))

/-- The matrix `c • I` as an `n × n` list matrix. -/
def scaledIdent (c : ℚ) : ℕ → List (List ℚ)
  | 0 => []
  | n + 1 => (c :: List.replicate n 0) :: (scaledIdent c n).map (fun row => (0 : ℚ) :: row)

/-- Matrix product `A ⬝ B` where the second factor is handed over already transposed:
`(matMulT A Bt)[i][j] = dot (A i) (Bt j)`. -/
def matMulT (A Bt : List (List ℚ)) : List (List ℚ) := A.map (fun r => Bt.map (dotL r))

/-- Matrix-vector product `A ⬝ x` for a list matrix and vector. -/
def matVecL (A : List (List ℚ)) (x : List ℚ) : List ℚ := A.map (fun r => dotL r x)

/-- Modelled from the spec: exact matrix inverse used by the penalized
least-squares solver; `none` models the singular case
(`numpy.linalg.LinAlgError`). Realized in closed form for the 1×1 and 2×2
systems exercised by the concrete runs in this development; the fitting-loop
theorems that must cover every dimension quantify over an arbitrary
`Solver` instead of this instance. -/
def invSmall : List (List ℚ) → Option (List (List ℚ))
  | [[a]] => if a = 0 then none else some [[1 / a]]
  | [[a, b], [c, d]] =>
    if a * d - b * c = 0 then none
    else
      some [[d / (a * d - b * c), -b / (a * d - b * c)],
            [-c / (a * d - b * c), a / (a * d - b * c)]]
  | _ => none

structure ConvWarning where
  idx : ℕ
  time : ℚ
deriving DecidableEq, Repr

/-- The per-step solver interface: design matrix, death mask, the two
penalties and the offset vector; `some (V, v)` bundles the slices
`R[:, :-1]` and `R[:, -1]` of the source's `R = lr(...)`, `none` models a
raised `LinAlgError`. -/
def Solver : Type :=
  List (List ℚ) → List Bool → ℚ → ℚ → List ℚ → Option (List (List ℚ) × List ℚ)

/-- Modelled from the spec: `lifelines.utils.ridge_regression` (imported as
`lr` at source line 17 but absent from `src/`). Per spec §4.1 it solves the
ridge/smoothing-penalized system: with `M = XᵀX + (c1 + c2)·I`,
`V = M⁻¹ Xᵀ` and coefficients `v = M⁻¹ (Xᵀ·deaths + c2·offset)`; a singular
`M` (possible only when `c1 = c2 = 0`) raises `LinAlgError` (`none`). -/
def lrModel : Solver := fun X deaths c1 c2 offset =>
  let d := (X.headD []).length
  let Xt := transposeFuel d X
  let M := addMat (matMulT Xt Xt) (scaledIdent (c1 + c2) d)
  match invSmall M with
  | none => none
  | some M1 =>
    let y : List ℚ := deaths.map (fun b => if b then 1 else 0)
    some (matMulT M1 X, matVecL M1 (addRows (matVecL Xt y) (scaleVec c2 offset)))

/-- Embeds `((V[:, deaths]) ** 2).sum()` for one row of `V`: the sum of squared
entries at the death columns (source line 215, per covariate). -/
def maskedSquareSum (deaths : List Bool) (row : List ℚ) : ℚ :=
  (List.zipWith (fun b x => if b then x * x else 0) deaths row).sum

/-- Row `i` of `variance_hazards_`: `(V[:, deaths] ** 2).sum(1)`. -/
def varianceRow (V : List (List ℚ)) (deaths : List Bool) : List ℚ :=
  V.map (maskedSquareSum deaths)

/-- Embeds `exits = T == t` (source line 199): the mask of subjects leaving at
time `t` (`T` is never mutated, so the comparison is against the original
durations). -/
def stepExits (T : List ℚ) (t : ℚ) : List Bool :=
  T.map (fun s => if s = t then true else false)

/-- Embeds `deaths = exits & E` (source line 200). -/
def stepDeaths (exits E : List Bool) : List Bool :=
  List.zipWith (fun a b => a && b) exits E

/-- Embeds `X[exits, :] = 0` (source line 217): zero the exited subjects rows. -/
def zeroExited (exits : List Bool) (X : List (List ℚ)) : List (List ℚ) :=
  List.zipWith (fun ex (row : List ℚ) => if ex then List.replicate row.length 0 else row)
    exits X

/-- The `try/except LinAlgError` block (source lines 201-211). On success,
the new `(V, v)` from `R = lr(...)`; on failure, a `ConvergenceWarning`
naming the step index and time, `v = zeros(d)`, and `V` retained from the
previous step (the source's `# TODO: handle V here.`) — if no previous
step ever set `V` (`Vst = none`), the body's later read of the unbound
local `V` raises `NameError`, modelled by `none`. -/
def solveStep (solver : Solver) (c1 c2 : ℚ) (X : List (List ℚ)) (deaths : List Bool)
    (v : List ℚ) (Vst : Option (List (List ℚ))) (i : ℕ) (t : ℚ) (d : ℕ) :
    Option (List (List ℚ) × List ℚ × List ConvWarning) :=
  match solver X deaths c1 c2 v with
  | some r => some (r.1, r.2, [])
  | none =>
    match Vst with
    | none => none
    | some V => some (V, List.replicate d 0, [⟨i, t⟩])

/-- The iteration of `_fit_model_to_data_batch` (source lines 197-229) over
the enumerated unique death times. Loop state: the mutated design matrix
`X`, the offset vector `v`, the most recent solver matrix `Vst`, and
`total_observed_exits`. Each step solves (`solveStep`), records the
coefficient vector as the hazard row and `(V[:, deaths] ** 2).sum(1)` as
the variance row, zeroes the exited subjects' rows, then breaks iff
`3 * (d - 1) >= n - total_observed_exits`; only steps that do not break
accumulate their exits into the total. Returns the executed steps' hazard
rows, variance rows, and warnings. -/
def fitLoop (solver : Solver) (c1 c2 : ℚ) (T : List ℚ) (E : List Bool) (n d : ℕ) :
    List (ℕ × ℚ) → List (List ℚ) → List ℚ → Option (List (List ℚ)) → ℕ →
    Option (List (List ℚ) × List (List ℚ) × List ConvWarning)
  | [], _, _, _, _ => some ([], [], [])
  | (i, t) :: rest, X, v, Vst, tot =>
    match solveStep solver c1 c2 X (stepDeaths (stepExits T t) E) v Vst i t d with
    | none => none
    | some (V, vcur, warns) =>
      if 3 * ((d : ℤ) - 1) ≥ (n : ℤ) - (tot : ℤ) then
        some ([vcur], [varianceRow V (stepDeaths (stepExits T t) E)], warns)
      else
        match fitLoop solver c1 c2 T E n d rest (zeroExited (stepExits T t) X) vcur (some V)
            (tot + countTrue (stepExits T t)) with
        | none => none
        | some (hs, vs, ws) =>
          some (vcur :: hs, varianceRow V (stepDeaths (stepExits T t) E) :: vs, warns ++ ws)

/-- Embeds `_fit_model_to_data_batch` (source lines 180-231). The result matrices
are preallocated as `np.zeros((n_deaths, d))`, so steps never executed
because of the early break remain rows of zeros. The `weights` argument is
accepted (source line 180) but never read by the loop body. -/
def fitModelToDataBatch (solver : Solver) (c1 c2 : ℚ) (X : List (List ℚ)) (T : List ℚ)
    (E : List Bool) (weights : List ℚ) :
    Option (List (List ℚ) × List (List ℚ) × List ConvWarning) :=
  let n := X.length
  let d := (X.headD []).length
  let udt := uniqueDeathTimes T E
  match fitLoop solver c1 c2 T E n d (enumFrom 0 udt) X (List.replicate d 0) none 0 with
  | none => none
  | some (hs, vs, ws) =>
    some (hs ++ List.replicate (udt.length - hs.length) (List.replicate d 0),
          vs ++ List.replicate (udt.length - vs.length) (List.replicate d 0), ws)

/-- Embeds `_fit_model` (source lines 166-178): the DataFrame index
`np.sort(np.unique(T[E]))` together with the column-wise cumulative sums of
the batch outputs. -/
def fitModel (solver : Solver) (c1 c2 : ℚ) (X : List (List ℚ)) (T : List ℚ) (E : List Bool)
    (weights : List ℚ) :
    Option (List ℚ × List (List ℚ) × List (List ℚ) × List ConvWarning) :=
  match fitModelToDataBatch solver c1 c2 X T E weights with
  | none => none
  | some (hs, vs, ws) => some (uniqueDeathTimes T E, cumsum hs, cumsum vs, ws)

/-- Specification-side transcription of the early-stop rule (spec §4.2 /
claim C4): the number of executed steps, given `n`, `d`, the running
`total_observed_exits` and the per-step exit counts; the check
`3 * (d - 1) >= n - total_observed_exits` is evaluated at the end of a step
BEFORE that step's exits are accumulated. -/
def stopSteps (n d : ℕ) : ℕ → List ℕ → ℕ
  | _, [] => 0
  | tot, c :: rest =>
    if 3 * ((d : ℤ) - 1) ≥ (n : ℤ) - (tot : ℤ) then 1 else 1 + stopSteps n d (tot + c) rest

/-- Pointwise `≤` of two rows (positional; a row that ends is not
constrained further — all uses are on equal-length rows). -/
def rowLE : List ℚ → List ℚ → Prop
  | [], _ => True
  | _ :: _, [] => True
  | x :: xs, y :: ys => x ≤ y ∧ rowLE xs ys

/-- Column-wise non-decrease down the rows of a matrix. -/
def colsNondecreasing : List (List ℚ) → Prop
  | [] => True
  | [_] => True
  | a :: b :: rest => rowLE a b ∧ colsNondecreasing (b :: rest)

/-- Every entry of the matrix is non-negative. -/
def matNonneg (M : List (List ℚ)) : Prop := ∀ r ∈ M, ∀ x ∈ r, 0 ≤ x

/-- Pointwise `≥` of two real rows (positional, as in `rowLE`). -/
def rowGE : List ℝ → List ℝ → Prop
  | [], _ => True
  | _ :: _, [] => True
  | x :: xs, y :: ys => y ≤ x ∧ rowGE xs ys

/-- Column-wise non-increase down the rows of a real matrix. -/
def colsNonincreasing : List (List ℝ) → Prop
  | [] => True
  | [_] => True
  | a :: b :: rest => rowGE a b ∧ colsNonincreasing (b :: rest)

/-! ## Preprocessing, fitter state and prediction -/

inductive FitError where
  | valueError (msg : String)
  | attributeError (name : String)
  | assertionError (msg : String)
  | keyError (name : String)
  | nameError (name : String)
  | indexError (msg : String)
deriving DecidableEq, Repr

inductive StatWarning where
  | nonIntegerWeights
deriving DecidableEq, Repr

/-- A pandas DataFrame: named columns over rows of rationals. -/
structure Frame where
  cols : List String
  rows : List (List ℚ)
deriving DecidableEq, Repr

/-- The value a row holds in the named column (`0` when absent — all uses
are guarded by the column's existence). -/
def colVal (c : String) : List String → List ℚ → ℚ
  | [], _ => 0
  | _ :: _, [] => 0
  | s :: srest, x :: xrest => if s = c then x else colVal c srest xrest

/-- Remove the named column's cell from a row, returning it and the rest. -/
def popRow (c : String) : List String → List ℚ → Option (ℚ × List ℚ)
  | [], _ => none
  | _ :: _, [] => none
  | s :: srest, x :: xrest =>
    if s = c then some (x, xrest)
    else (popRow c srest xrest).map (fun p => (p.1, x :: p.2))

/-- Remove the named column from the header. -/
def popColNames (c : String) : List String → Option (List String)
  | [] => none
  | s :: rest => if s = c then some rest else (popColNames c rest).map (fun l => s :: l)

def popRows (c : String) (cols : List String) : List (List ℚ) → Option (List ℚ × List (List ℚ))
  | [] => some ([], [])
  | r :: rest =>
    match popRow c cols r, popRows c cols rest with
    | some p, some q => some (p.1 :: q.1, p.2 :: q.2)
    | _, _ => none

/-- Embeds `df.pop(c)`: the column values and the remaining frame (`none` models
pandas' `KeyError`). -/
def popCol (c : String) (f : Frame) : Option (List ℚ × Frame) :=
  match popColNames c f.cols, popRows c f.cols f.rows with
  | some cols2, some vr => some (vr.1, ⟨cols2, vr.2⟩)
  | _, _ => none

/-- Embeds `df.sort_values(by=durationCol)` (source line 236): rows ordered by
their duration value (insertion sort; tie order is not relied upon). -/
def sortByCol (c : String) (f : Frame) : Frame :=
  ⟨f.cols, f.rows.insertionSort (fun r1 r2 => colVal c f.cols r1 ≤ colVal c f.cols r2)⟩

/-- Attributes assigned somewhere by the class's own code (`__init__`
lines 70-73 and `fit` lines 131-163, `score_` line 457). `robust`, read at
source line 249, is not among them. -/
def fitterAssignedAttrs : List String :=
  ["fit_intercept", "alpha", "coef_penalizer", "smoothing_penalizer",
   "_time_fit_was_called", "duration_col", "event_col", "weights_col", "_n_examples",
   "durations", "event_observed", "weights", "_norm_std",
   "cumulative_hazards_", "cumulative_variance_", "confidence_intervals_",
   "_predicted_hazards_", "_concordance_score_"]

/-- Python attribute lookup `self.robust` (source line 249): an
`AttributeError` unless the attribute was assigned (were it ever assigned,
`false` stands in as its value). -/
def robustLookup : Except FitError Bool :=
  if "robust" ∈ fitterAssignedAttrs then Except.ok false
  else Except.error (FitError.attributeError "robust")

/-- numpy `astype(int)` of a float: truncation toward zero. -/
def ratTrunc (q : ℚ) : ℤ := if q < 0 then ⌈q⌉ else ⌊q⌋

/-- The two pops of `T`/`E`/`W` plus the sort (source lines 236-245);
a missing column is pandas' `KeyError`. Absent event/weights columns
default to ones. -/
def extractTEW (durationCol : String) (eventCol weightsCol : Option String) (df : Frame) :
    Except FitError (List ℚ × List ℚ × List ℚ × Frame) :=
  let n := df.rows.length
  match popCol durationCol (sortByCol durationCol df) with
  | none => Except.error (FitError.keyError durationCol)
  | some (T, df1) =>
    match (match eventCol with
           | some ec => popCol ec df1
           | none => some (List.replicate n 1, df1)) with
    | none => Except.error (FitError.keyError (eventCol.getD ""))
    | some (Ev, df2) =>
      match (match weightsCol with
             | some wc => popCol wc df2
             | none => some (List.replicate n 1, df2)) with
      | none => Except.error (FitError.keyError (weightsCol.getD ""))
      | some (W, df3) => Except.ok (T, Ev, W, df3)

/-- The weight checks of `_preprocess_dataframe` (source lines 247-257),
run only when a weights column was passed. First the non-integral check
`(W.astype(int) != W).any() and not self.robust`, whose `self.robust` read
raises; then the positivity check raising `ValueError`. -/
def weightChecks (weightsCol : Option String) (W : List ℚ) :
    Except FitError (List StatWarning) :=
  match weightsCol with
  | none => Except.ok []
  | some wc =>
    let step1 : Except FitError (List StatWarning) :=
      match W.any (fun w => if (ratTrunc w : ℚ) = w then false else true) with
      | true =>
        match robustLookup with
        | Except.error e => Except.error e
        | Except.ok robust =>
          Except.ok (if robust then [] else [StatWarning.nonIntegerWeights])
      | false => Except.ok []
    match step1 with
    | Except.error e => Except.error e
    | Except.ok warns =>
      match W.any (fun w => if w ≤ 0 then true else false) with
      | true =>
        Except.error (FitError.valueError
          ("values in weight column " ++ wc ++ " must be positive."))
      | false => Except.ok warns

structure PreOut where
  X : Frame
  T : List ℚ
  E : List Bool
  W : List ℚ
  warns : List StatWarning
deriving DecidableEq, Repr

/-- Embeds `_preprocess_dataframe` (source lines 233-271): sort by duration, pop
duration/event/weights, weight checks, value validation (vacuous here —
cells are exact rationals by construction, so the non-numeric and NaN/Inf
checks cannot fire), then the reserved `baseline` intercept column
(`AssertionError` on collision) and the casts (`E.astype(bool)`). -/
def preprocessDataframe (fitIntercept : Bool) (durationCol : String)
    (eventCol weightsCol : Option String) (df : Frame) : Except FitError PreOut :=
  match extractTEW durationCol eventCol weightsCol df with
  | Except.error e => Except.error e
  | Except.ok (T, Ev, W, X) =>
    match weightChecks weightsCol W with
    | Except.error e => Except.error e
    | Except.ok warns =>
      if fitIntercept then
        if "baseline" ∈ X.cols then
          Except.error (FitError.assertionError
            "baseline is an internal lifelines column, please rename your column first.")
        else
          Except.ok ⟨⟨X.cols ++ ["baseline"], X.rows.map (fun r => r ++ [1])⟩, T,
            Ev.map (fun e => if e = 0 then false else true), W, warns⟩
      else
        Except.ok ⟨X, T, Ev.map (fun e => if e = 0 then false else true), W, warns⟩

/-- Sample variance with pandas' default `ddof = 1` (the square of
`X.std(0)`); a column of fewer than two entries is left at `0`. -/
def sampleVar (xs : List ℚ) : ℚ :=
  if xs.length ≤ 1 then 0
  else (xs.map (fun x => (x - xs.sum / (xs.length : ℚ)) ^ 2)).sum / ((xs.length : ℚ) - 1)

/-- The columns of a list matrix. -/
def colsOf (X : List (List ℚ)) : List (List ℚ) := transposeFuel (X.headD []).length X

def colVariances (X : List (List ℚ)) : List ℚ := (colsOf X).map sampleVar

/-- States that `σ` is the pandas `X.std(0)`: entrywise non-negative with
`σⱼ² = sample variance of column j`. The square root leaves ℚ, so `σ` is
passed to the fit embedding as an argument and pinned down by this
predicate exactly where its value matters. -/
def isColStd (X : List (List ℚ)) (σ : List ℚ) : Prop :=
  σ.map (fun s => s * s) = colVariances X ∧ ∀ s ∈ σ, 0 ≤ s

/-- Source lines 149-154: with an intercept the `baseline` entry (the last
column) of `_norm_std` is set to 1; otherwise entries below `1e-8` are
replaced by 1. -/
def adjustNormStd (fitIntercept : Bool) (σ : List ℚ) : List ℚ :=
  if fitIntercept then σ.dropLast ++ [1]
  else σ.map (fun s => if s < 1 / 100000000 then 1 else s)

/-- Modelled from the spec: `lifelines.utils.normalize(X, 0, σ)` (imported
at source line 24 but absent from `src/`): column-wise division by `σ`. -/
def normalizeCols (X : List (List ℚ)) (σ : List ℚ) : List (List ℚ) :=
  X.map (fun r => List.zipWith (fun x s => x / s) r σ)

/-- Embeds `self.cumulative_hazards_ /= self._norm_std` (lines 159-160):
every row divided elementwise by `σ`. -/
def scaleColsInv (σ : List ℚ) (M : List (List ℚ)) : List (List ℚ) :=
  M.map (fun r => List.zipWith (fun x s => x / s) r σ)

/-- Embeds `predict_cumulative_hazard` (source lines 273-301) on a positional
covariate matrix: append the intercept column of ones when fitted with
one, then `cumulative_hazards_ ⬝ X_ᵀ` (rows = time index, columns =
individuals). -/
def predictCumulativeHazard (fitIntercept : Bool) (cumHaz : List (List ℚ))
    (Xnew : List (List ℚ)) : List (List ℚ) :=
  let X2 := if fitIntercept then Xnew.map (fun r => r ++ [1]) else Xnew
  cumHaz.map (fun hrow => X2.map (fun xrow => dotL hrow xrow))

/-- Embeds `predict_survival_function` (source line 321):
`np.exp(-self.predict_cumulative_hazard(X))`, float `exp` modelled as the
real exponential. -/
noncomputable def predictSurvivalFunction (fitIntercept : Bool) (cumHaz : List (List ℚ))
    (Xnew : List (List ℚ)) : List (List ℝ) :=
  (predictCumulativeHazard fitIntercept cumHaz Xnew).map
    (fun row => row.map (fun q : ℚ => Real.exp (-(q : ℝ))))

/-- The fitter's attribute state; `none` (or `false` for the timestamp
flag) marks an attribute not yet assigned. -/
structure FitterState where
  timeFitWasCalledSet : Bool := false
  durationCol : Option String := none
  eventCol : Option (Option String) := none
  weightsCol : Option (Option String) := none
  nExamples : Option ℕ := none
  durations : Option (List ℚ) := none
  eventObserved : Option (List Bool) := none
  weights : Option (List ℚ) := none
  normStd : Option (List ℚ) := none
  hazardIndex : Option (List ℚ) := none
  cumulativeHazards : Option (List (List ℚ)) := none
  cumulativeVariance : Option (List (List ℚ)) := none
  predictedHazards : Option (List ℚ) := none
deriving DecidableEq, Repr

/-- Embeds `fit` (source lines 131-164) as a transformer of the fitter state,
returning the state as mutated so far together with the raised error, if
any. Lines 131-139 assign the bookkeeping attributes before
`_preprocess_dataframe` runs any check. The pandas standard deviation
`X.std(0)` (line 147) leaves ℚ, so it enters as the argument `σ`,
characterized by `isColStd` wherever its value matters. Line 163 takes
`.iloc[-1]` of the predicted cumulative-hazard frame — an `IndexError`
when the time index is empty. -/
def fitRun (fitIntercept : Bool) (solver : Solver) (c1 c2 : ℚ) (σ : List ℚ)
    (s0 : FitterState) (df : Frame) (durationCol : String)
    (eventCol weightsCol : Option String) : FitterState × Option FitError :=
  let s1 := { s0 with timeFitWasCalledSet := true, durationCol := some durationCol,
                      eventCol := some eventCol, weightsCol := some weightsCol,
                      nExamples := some df.rows.length }
  match preprocessDataframe fitIntercept durationCol eventCol weightsCol df with
  | Except.error e => (s1, some e)
  | Except.ok pre =>
    let s2 := { s1 with durations := some pre.T, eventObserved := some pre.E,
                        weights := some pre.W }
    let nstd := adjustNormStd fitIntercept σ
    let s3 := { s2 with normStd := some nstd }
    match fitModel solver c1 c2 (normalizeCols pre.X.rows nstd) pre.T pre.E pre.W with
    | none => (s3, some (FitError.nameError "V"))
    | some (idx, H, V, _) =>
      let Hs := scaleColsInv nstd H
      let s4 := { s3 with hazardIndex := some idx, cumulativeHazards := some Hs,
                          cumulativeVariance := some (scaleColsInv nstd V) }
      let Xpred := if fitIntercept then pre.X.rows.map (fun r => r.dropLast) else pre.X.rows
      match (predictCumulativeHazard fitIntercept Hs Xpred).getLast? with
      | none => (s4, some (FitError.indexError "single positional indexer is out-of-bounds"))
      | some lastRow => ({ s4 with predictedHazards := some lastRow }, none)

end Aalen

namespace Aalen

/-! ## Supporting lemmas -/

theorem addRows_nonneg {a b : List ℚ} (ha : ∀ x ∈ a, 0 ≤ x) (hb : ∀ x ∈ b, 0 ≤ x) :
    ∀ x ∈ addRows a b, 0 ≤ x := by
  induction a generalizing b with
  | nil => simpa [addRows] using hb
  | cons x xs ih =>
    cases b with
    | nil => simpa [addRows] using ha
    | cons y ys =>
      intro z hz
      simp only [addRows, List.mem_cons] at hz
      rcases hz with hz | hz
      · subst hz
        exact add_nonneg (ha x (by simp)) (hb y (by simp))
      · exact ih (fun u hu => ha u (by simp [hu])) (fun u hu => hb u (by simp [hu])) z hz

theorem rowLE_refl (a : List ℚ) : rowLE a a := by
  induction a with
  | nil => trivial
  | cons x xs ih => exact ⟨le_refl x, ih⟩

theorem rowLE_addRows {a : List ℚ} (r : List ℚ) (hr : ∀ x ∈ r, 0 ≤ x) :
    rowLE a (addRows a r) := by
  induction a generalizing r with
  | nil => trivial
  | cons x xs ih =>
    cases r with
    | nil => exact rowLE_refl (x :: xs)
    | cons y ys =>
      exact ⟨le_add_of_nonneg_right (hr y (by simp)),
        ih ys (fun u hu => hr u (by simp [hu]))⟩

theorem cumsumFrom_length (acc : List ℚ) (M : List (List ℚ)) :
    (cumsumFrom acc M).length = M.length := by
  induction M generalizing acc with
  | nil => rfl
  | cons r rest ih => simp [cumsumFrom, ih]

theorem cumsum_length (M : List (List ℚ)) : (cumsum M).length = M.length :=
  cumsumFrom_length [] M

theorem cumsumFrom_nonneg {M : List (List ℚ)} (hM : ∀ r ∈ M, ∀ x ∈ r, 0 ≤ x)
    {acc : List ℚ} (hacc : ∀ x ∈ acc, 0 ≤ x) :
    ∀ r ∈ cumsumFrom acc M, ∀ x ∈ r, 0 ≤ x := by
  induction M generalizing acc with
  | nil => simp [cumsumFrom]
  | cons r rest ih =>
    intro q hq
    simp only [cumsumFrom, List.mem_cons] at hq
    have hacc2 : ∀ x ∈ addRows acc r, 0 ≤ x :=
      addRows_nonneg hacc (hM r (by simp))
    rcases hq with hq | hq
    · subst hq; exact hacc2
    · exact ih (fun u hu => hM u (by simp [hu])) hacc2 q hq

theorem cumsumFrom_chain {M : List (List ℚ)} (hM : ∀ r ∈ M, ∀ x ∈ r, 0 ≤ x)
    (acc : List ℚ) : colsNondecreasing (acc :: cumsumFrom acc M) := by
  induction M generalizing acc with
  | nil => simp [cumsumFrom, colsNondecreasing]
  | cons r rest ih =>
    refine ⟨rowLE_addRows r (hM r (by simp)), ?_⟩
    exact ih (fun u hu => hM u (by simp [hu])) (addRows acc r)

theorem cumsum_colsNondecreasing {M : List (List ℚ)} (hM : matNonneg M) :
    colsNondecreasing (cumsum M) := by
  cases M with
  | nil => trivial
  | cons r rest =>
    show colsNondecreasing (addRows [] r :: cumsumFrom (addRows [] r) rest)
    exact cumsumFrom_chain (fun u hu => hM u (by simp [hu])) (addRows [] r)

theorem cumsum_nonneg {M : List (List ℚ)} (hM : matNonneg M) : matNonneg (cumsum M) :=
  cumsumFrom_nonneg hM (by simp)

theorem maskedSquareSum_nonneg (deaths : List Bool) (row : List ℚ) :
    0 ≤ maskedSquareSum deaths row := by
  induction deaths generalizing row with
  | nil => simp [maskedSquareSum]
  | cons b bs ih =>
    cases row with
    | nil => simp [maskedSquareSum]
    | cons x xs =>
      have h := ih xs
      simp only [maskedSquareSum, List.zipWith_cons_cons, List.sum_cons] at h ⊢
      refine add_nonneg ?_ h
      by_cases hb : b = true <;> simp [hb, mul_self_nonneg]

theorem varianceRow_nonneg (V : List (List ℚ)) (deaths : List Bool) :
    ∀ x ∈ varianceRow V deaths, 0 ≤ x := by
  intro x hx
  simp only [varianceRow, List.mem_map] at hx
  obtain ⟨row, -, rfl⟩ := hx
  exact maskedSquareSum_nonneg deaths row

theorem countTrue_exits (T : List ℚ) (t : ℚ) :
    countTrue (stepExits T t) = countMatches t T := by
  induction T with
  | nil => rfl
  | cons s rest ih =>
    by_cases h : s = t <;>
      simp [countTrue, countMatches, stepExits, h] at ih ⊢ <;> omega

theorem enumFrom_length (i : ℕ) (l : List ℚ) : (enumFrom i l).length = l.length := by
  induction l generalizing i with
  | nil => rfl
  | cons x xs ih => simp [enumFrom, ih]

theorem enumFrom_map_counts (T : List ℚ) (i : ℕ) (l : List ℚ) :
    (enumFrom i l).map (fun p => countMatches p.2 T) = l.map (fun t => countMatches t T) := by
  induction l generalizing i with
  | nil => rfl
  | cons x xs ih => simp [enumFrom, ih]

theorem mem_uniqueDeathTimes {T : List ℚ} {E : List Bool} {x : ℚ} :
    x ∈ uniqueDeathTimes T E ↔ x ∈ maskSelect T E := by
  unfold uniqueDeathTimes
  rw [List.mem_insertionSort, List.mem_dedup]

theorem uniqueDeathTimes_nodup (T : List ℚ) (E : List Bool) :
    (uniqueDeathTimes T E).Nodup :=
  ((List.perm_insertionSort _ _).nodup_iff).mpr (List.nodup_dedup _)

theorem uniqueDeathTimes_sorted (T : List ℚ) (E : List Bool) :
    (uniqueDeathTimes T E).Sorted (· < ·) := by
  have hs : (uniqueDeathTimes T E).Sorted (· ≤ ·) := List.sorted_insertionSort _ _
  have hn := uniqueDeathTimes_nodup T E
  exact (List.Pairwise.and hs hn).imp (fun h => lt_of_le_of_ne h.1 h.2)

theorem maskSelect_eq_nil {T : List ℚ} {E : List Bool} (hE : ∀ b ∈ E, b = false) :
    maskSelect T E = [] := by
  induction T generalizing E with
  | nil => rfl
  | cons t ts ih =>
    cases E with
    | nil => rfl
    | cons e es =>
      have he : e = false := hE e (by simp)
      subst he
      simpa [maskSelect] using ih (fun b hb => hE b (by simp [hb]))

/-- The combined loop invariant: on a successful run the number of hazard
rows equals the claim C4 step count `stopSteps`, matches the variance rows,
is bounded by the number of steps offered, and every variance entry is
non-negative. -/
theorem fitLoop_spec (solver : Solver) (c1 c2 : ℚ) (T : List ℚ) (E : List Bool) (n d : ℕ) :
    ∀ (times : List (ℕ × ℚ)) (X : List (List ℚ)) (v : List ℚ)
      (Vst : Option (List (List ℚ))) (tot : ℕ) (hs vs : List (List ℚ))
      (ws : List ConvWarning),
      fitLoop solver c1 c2 T E n d times X v Vst tot = some (hs, vs, ws) →
      hs.length = stopSteps n d tot (times.map (fun p => countMatches p.2 T)) ∧
      vs.length = hs.length ∧ hs.length ≤ times.length ∧
      (∀ r ∈ vs, ∀ x ∈ r, 0 ≤ x)
  | [], X, v, Vst, tot, hs, vs, ws => by
    intro h
    simp only [fitLoop, Option.some.injEq, Prod.mk.injEq] at h
    obtain ⟨h1, h2, h3⟩ := h
    subst h1; subst h2
    simp [stopSteps]
  | (i, t) :: rest, X, v, Vst, tot, hs, vs, ws => by
    intro h
    rw [fitLoop] at h
    split at h
    · exact absurd h (by simp)
    · rename_i V vcur warns hss
      split at h
      · rename_i hcond
        simp only [Option.some.injEq, Prod.mk.injEq] at h
        obtain ⟨h1, h2, h3⟩ := h
        subst h1; subst h2
        refine ⟨?_, by simp, by simp, ?_⟩
        · simp [stopSteps, hcond]
        · intro r hr
          simp only [List.mem_singleton] at hr
          subst hr
          exact varianceRow_nonneg _ _
      · rename_i hcond
        split at h
        · exact absurd h (by simp)
        · rename_i hs2 vs2 ws2 hrec
          simp only [Option.some.injEq, Prod.mk.injEq] at h
          obtain ⟨h1, h2, h3⟩ := h
          subst h1; subst h2
          obtain ⟨ih1, ih2, ih3, ih4⟩ :=
            fitLoop_spec solver c1 c2 T E n d rest _ _ _ _ hs2 vs2 ws2 hrec
          refine ⟨?_, by simp [ih2], by simpa using Nat.succ_le_succ ih3, ?_⟩
          · rw [List.length_cons, ih1, countTrue_exits]
            simp only [List.map_cons, stopSteps, if_neg hcond]
            omega
          · intro r hr
            simp only [List.mem_cons] at hr
            rcases hr with hr | hr
            · subst hr; exact varianceRow_nonneg _ _
            · exact ih4 r hr

theorem fitModelToDataBatch_spec (solver : Solver) (c1 c2 : ℚ) (X : List (List ℚ))
    (T : List ℚ) (E : List Bool) (w : List ℚ) (hs vs : List (List ℚ))
    (ws : List ConvWarning)
    (h : fitModelToDataBatch solver c1 c2 X T E w = some (hs, vs, ws)) :
    hs.length = (uniqueDeathTimes T E).length ∧
    vs.length = (uniqueDeathTimes T E).length ∧
    (∀ r ∈ vs, ∀ x ∈ r, 0 ≤ x) := by
  rw [fitModelToDataBatch] at h
  split at h
  · exact absurd h (by simp)
  · rename_i hs0 vs0 ws0 hl
    obtain ⟨l1, l2, l3, l4⟩ := fitLoop_spec _ _ _ _ _ _ _ _ _ _ _ _ _ _ _ hl
    simp only [Option.some.injEq, Prod.mk.injEq] at h
    obtain ⟨h1, h2, h3⟩ := h
    subst h1; subst h2
    have hle : hs0.length ≤ (uniqueDeathTimes T E).length := by
      simpa [enumFrom_length] using l3
    refine ⟨?_, ?_, ?_⟩
    · simp only [List.length_append, List.length_replicate]
      omega
    · simp only [List.length_append, List.length_replicate]
      omega
    · intro r hr
      rcases List.mem_append.mp hr with hr | hr
      · exact l4 r hr
      · intro x hx
        rw [List.eq_of_mem_replicate hr] at hx
        rw [List.eq_of_mem_replicate hx]

theorem fitModel_spec (solver : Solver) (c1 c2 : ℚ) (X : List (List ℚ)) (T : List ℚ)
    (E : List Bool) (w : List ℚ) (idx : List ℚ) (H V : List (List ℚ))
    (ws : List ConvWarning)
    (h : fitModel solver c1 c2 X T E w = some (idx, H, V, ws)) :
    idx = uniqueDeathTimes T E ∧
    H.length = (uniqueDeathTimes T E).length ∧
    V.length = (uniqueDeathTimes T E).length ∧
    matNonneg V ∧ colsNondecreasing V := by
  rw [fitModel] at h
  split at h
  · exact absurd h (by simp)
  · rename_i hs0 vs0 ws0 hb
    simp only [Option.some.injEq, Prod.mk.injEq] at h
    obtain ⟨h1, h2, h3, h4⟩ := h
    subst h1; subst h2; subst h3
    obtain ⟨b1, b2, b3⟩ := fitModelToDataBatch_spec _ _ _ _ _ _ _ _ _ _ hb
    exact ⟨rfl, by rw [cumsum_length, b1], by rw [cumsum_length, b2],
      cumsum_nonneg b3, cumsum_colsNondecreasing b3⟩

theorem zipDiv_nonneg {a σ : List ℚ} (ha : ∀ x ∈ a, 0 ≤ x) (hσ : ∀ s ∈ σ, 0 ≤ s) :
    ∀ x ∈ List.zipWith (fun x s => x / s) a σ, 0 ≤ x := by
  induction a generalizing σ with
  | nil => simp
  | cons x xs ih =>
    cases σ with
    | nil => simp
    | cons s ss =>
      intro z hz
      simp only [List.zipWith_cons_cons, List.mem_cons] at hz
      rcases hz with hz | hz
      · subst hz
        exact div_nonneg (ha x (by simp)) (hσ s (by simp))
      · exact ih (fun u hu => ha u (by simp [hu])) (fun u hu => hσ u (by simp [hu])) z hz

theorem matNonneg_scale {M : List (List ℚ)} {σ : List ℚ} (hσ : ∀ s ∈ σ, 0 ≤ s)
    (hM : matNonneg M) : matNonneg (scaleColsInv σ M) := by
  intro r hr
  simp only [scaleColsInv, List.mem_map] at hr
  obtain ⟨r0, hr0, rfl⟩ := hr
  exact zipDiv_nonneg (hM r0 hr0) hσ

theorem rowLE_scaleRow {a b σ : List ℚ} (hσ : ∀ s ∈ σ, 0 < s) (hab : rowLE a b) :
    rowLE (List.zipWith (fun x s => x / s) a σ) (List.zipWith (fun x s => x / s) b σ) := by
  induction a generalizing b σ with
  | nil => simp [rowLE]
  | cons x xs ih =>
    cases b with
    | nil =>
      cases σ with
      | nil => simp [rowLE]
      | cons s ss => simp [rowLE]
    | cons y ys =>
      cases σ with
      | nil => simp [rowLE]
      | cons s ss =>
        obtain ⟨hxy, hrest⟩ := hab
        exact ⟨(div_le_div_iff_of_pos_right (hσ s (by simp))).mpr hxy,
          ih (fun u hu => hσ u (by simp [hu])) hrest⟩

theorem colsNondecreasing_scale {M : List (List ℚ)} {σ : List ℚ}
    (hσ : ∀ s ∈ σ, 0 < s) (hM : colsNondecreasing M) :
    colsNondecreasing (scaleColsInv σ M) := by
  induction M with
  | nil => simp [scaleColsInv, colsNondecreasing]
  | cons a rest ih =>
    cases rest with
    | nil => simp [scaleColsInv, colsNondecreasing]
    | cons b rest2 =>
      obtain ⟨hab, hrest⟩ := hM
      have h2 := ih hrest
      simp only [scaleColsInv, List.map_cons] at h2 ⊢
      exact ⟨rowLE_scaleRow hσ hab, h2⟩

theorem rowGE_expNeg {a b : List ℚ} (h : rowLE a b) :
    rowGE (a.map (fun q : ℚ => Real.exp (-(q : ℝ)))) (b.map (fun q : ℚ => Real.exp (-(q : ℝ)))) := by
  induction a generalizing b with
  | nil => simp [rowGE]
  | cons x xs ih =>
    cases b with
    | nil => simp [rowGE]
    | cons y ys =>
      obtain ⟨hxy, hrest⟩ := h
      exact ⟨Real.exp_le_exp.mpr (neg_le_neg (Rat.cast_le.mpr hxy)), ih hrest⟩

theorem colsNonincreasing_expNeg {M : List (List ℚ)} (hM : colsNondecreasing M) :
    colsNonincreasing (M.map (fun row => row.map (fun q : ℚ => Real.exp (-(q : ℝ))))) := by
  induction M with
  | nil => simp [colsNonincreasing]
  | cons a rest ih =>
    cases rest with
    | nil => simp [colsNonincreasing]
    | cons b rest2 =>
      obtain ⟨hab, hrest⟩ := hM
      have h2 := ih hrest
      simp only [List.map_cons] at h2 ⊢
      exact ⟨rowGE_expNeg hab, h2⟩

theorem ratTrunc_negHalf : ratTrunc (-(1/2 : ℚ)) = 0 := by
  rw [ratTrunc, if_pos (by norm_num)]
  rw [Int.ceil_eq_iff]
  norm_num

theorem ratTrunc_zero : ratTrunc 0 = 0 := by
  rw [ratTrunc, if_neg (by norm_num)]
  exact Int.floor_zero

theorem ratTrunc_one : ratTrunc 1 = 1 := by
  rw [ratTrunc, if_neg (by norm_num)]
  exact Int.floor_one

theorem ratTrunc_two : ratTrunc 2 = 2 := by
  rw [ratTrunc, if_neg (by norm_num)]
  rw [show (2 : ℚ) = ((2 : ℤ) : ℚ) by norm_num, Int.floor_intCast]

theorem robustLookup_eval : robustLookup = Except.error (FitError.attributeError "robust") := by
  simp [robustLookup, fitterAssignedAttrs]

theorem weightMsgW : "values in weight column " ++ "W" ++ " must be positive." =
    "values in weight column W must be positive." := rfl

/-! ## Claim theorems -/

/-- Claim C1 (code-bug evidence). Dataset: covariate rows
`(1,0), (1,1), (1,1), (1,1)`, durations `1, 2, 3, 4`, all events observed,
no penalties. The second step's remaining design matrix is singular, so the
solver fails there: the step's hazard row is `[0, 0]` and a
`ConvergenceWarning` naming step index `1` and time `2` is recorded, and
fitting continues — but the step's variance row is `[0, 1/9]`, computed
from the PREVIOUS step's `V` (the source's `# TODO: handle V here.`),
not the zero variance the claim requires. -/
theorem c1_stale_variance_eval :
    fitModelToDataBatch lrModel 0 0 [[1, 0], [1, 1], [1, 1], [1, 1]] [1, 2, 3, 4]
      [true, true, true, true] [1, 1, 1, 1] =
      some ([[1, -1], [0, 0], [0, 0], [0, 0]],
            [[1, 1], [0, 1/9], [0, 0], [0, 0]], [⟨1, 2⟩]) ∧
    ([0, (1 : ℚ)/9] : List ℚ) ≠ ([0, 0] : List ℚ) := by
  constructor
  · norm_num [fitModelToDataBatch, uniqueDeathTimes, maskSelect, List.dedup_cons_of_not_mem,
      List.insertionSort, List.orderedInsert, fitLoop, solveStep, stepExits, stepDeaths,
      zeroExited, countTrue, lrModel, enumFrom, transposeFuel, scaledIdent, addMat, addRows,
      matMulT, matVecL, dotL, invSmall, varianceRow, maskedSquareSum, scaleVec,
      List.replicate]
  · intro h
    rw [List.cons.injEq, List.cons.injEq] at h
    exact absurd h.2.1 (by norm_num)

/-- Claim C2 (counterexample). Dataset: covariate rows `(1,0), (1,1), (1,1)`,
durations `1, 2, 3`, all events observed, no penalties. The early-stop rule
fires at the end of the first step (`3*(2-1) ≥ 3-0`), so exactly one step
executes — yet the produced matrices have 3 rows each and the time index is
the untruncated `[1, 2, 3]`, contradicting the claimed
`(steps_completed, d)` shape and truncated index. -/
theorem c2_counterexample :
    fitLoop lrModel 0 0 [1, 2, 3] [true, true, true] 3 2
      (enumFrom 0 (uniqueDeathTimes [1, 2, 3] [true, true, true]))
      [[1, 0], [1, 1], [1, 1]] [0, 0] none 0 = some ([[1, -1]], [[1, 1]], []) ∧
    fitModel lrModel 0 0 [[1, 0], [1, 1], [1, 1]] [1, 2, 3] [true, true, true] [1, 1, 1] =
      some ([1, 2, 3], [[1, -1], [1, -1], [1, -1]], [[1, 1], [1, 1], [1, 1]], []) ∧
    ([[1, -1], [1, -1], [1, -1]] : List (List ℚ)).length ≠
      ([[1, -1]] : List (List ℚ)).length := by
  refine ⟨?_, ?_, by simp⟩
  · norm_num [uniqueDeathTimes, maskSelect, List.dedup_cons_of_not_mem, List.insertionSort,
      List.orderedInsert, fitLoop, solveStep, stepExits, stepDeaths, zeroExited, countTrue,
      lrModel, enumFrom, transposeFuel, scaledIdent, addMat, addRows, matMulT, matVecL,
      dotL, invSmall, varianceRow, maskedSquareSum, scaleVec]
  · norm_num [fitModel, fitModelToDataBatch, uniqueDeathTimes, maskSelect,
      List.dedup_cons_of_not_mem, List.insertionSort, List.orderedInsert, fitLoop,
      solveStep, stepExits, stepDeaths, zeroExited, countTrue, lrModel, enumFrom,
      transposeFuel, scaledIdent, addMat, addRows, matMulT, matVecL, dotL, invSmall,
      varianceRow, maskedSquareSum, scaleVec, List.replicate, cumsum, cumsumFrom]

/-- Claim C2 (amended). On every successful fit, the cumulative hazard and
variance matrices have one row per unique observed event time — not per
executed step — and the time index is the full sorted, duplicate-free list
of observed event times (`T[E]`), untruncated by the early-stop rule. -/
theorem c2_rows_and_index (solver : Solver) (c1 c2 : ℚ) (X : List (List ℚ)) (T : List ℚ)
    (E : List Bool) (w : List ℚ) (idx : List ℚ) (H V : List (List ℚ))
    (ws : List ConvWarning)
    (h : fitModel solver c1 c2 X T E w = some (idx, H, V, ws)) :
    idx = uniqueDeathTimes T E ∧ H.length = idx.length ∧ V.length = idx.length ∧
    idx.Sorted (· < ·) ∧ idx.Nodup ∧ ∀ x : ℚ, x ∈ idx ↔ x ∈ maskSelect T E := by
  obtain ⟨h1, h2, h3, h4, h5⟩ := fitModel_spec _ _ _ _ _ _ _ _ _ _ _ h
  subst h1
  exact ⟨rfl, h2, h3, uniqueDeathTimes_sorted T E, uniqueDeathTimes_nodup T E,
    fun x => mem_uniqueDeathTimes⟩

theorem c2_rows_and_index_witness :
    ([1, 2, 3] : List ℚ) = uniqueDeathTimes [1, 2, 3] [true, true, true] ∧
    ([[1/2], [-1/2], [-1/2]] : List (List ℚ)).length = ([1, 2, 3] : List ℚ).length ∧
    ([[1/4], [5/4], [5/4]] : List (List ℚ)).length = ([1, 2, 3] : List ℚ).length ∧
    ([1, 2, 3] : List ℚ).Sorted (· < ·) ∧ ([1, 2, 3] : List ℚ).Nodup ∧
    ∀ x : ℚ, x ∈ ([1, 2, 3] : List ℚ) ↔ x ∈ maskSelect [1, 2, 3] [true, true, true] :=
  c2_rows_and_index lrModel 0 0 [[1], [-1], [0]] [1, 2, 3] [true, true, true] [1, 1, 1]
    [1, 2, 3] [[1/2], [-1/2], [-1/2]] [[1/4], [5/4], [5/4]] [⟨2, 3⟩] (by
      norm_num [fitModel, fitModelToDataBatch, uniqueDeathTimes, maskSelect,
        List.dedup_cons_of_not_mem, List.insertionSort, List.orderedInsert, fitLoop,
        solveStep, stepExits, stepDeaths, zeroExited, countTrue, lrModel, enumFrom,
        transposeFuel, scaledIdent, addMat, addRows, matMulT, matVecL, dotL, invSmall,
        varianceRow, maskedSquareSum, scaleVec, List.replicate, cumsum, cumsumFrom])

/-- Claim C3 (counterexample). Dataset: single covariate `x = 1, -1, 0` with
durations `1, 2, 3`, all observed, no intercept, no penalties. The sample
standard deviation of the covariate column is exactly `1` (so the
normalization is the identity and `cumulative_hazards_` is the cumulative
sum itself), the fit completes without error, and `cumulative_hazards_`
is `[[1/2], [-1/2], [-1/2]]` — its single column DECREASES from `1/2` to
`-1/2`, refuting the claimed column-wise non-decrease. -/
theorem c3_counterexample :
    isColStd [[1], [-1], [0]] [1] ∧
    (fitRun false lrModel 0 0 [1] {} ⟨["T", "x"], [[1, 1], [2, -1], [3, 0]]⟩
      "T" none none).1.cumulativeHazards = some [[1/2], [-1/2], [-1/2]] ∧
    (fitRun false lrModel 0 0 [1] {} ⟨["T", "x"], [[1, 1], [2, -1], [3, 0]]⟩
      "T" none none).2 = none ∧
    ¬ colsNondecreasing [[1/2], [-1/2], [-1/2]] := by
  have hrun : fitRun false lrModel 0 0 [1] {} ⟨["T", "x"], [[1, 1], [2, -1], [3, 0]]⟩
      "T" none none =
      ({ timeFitWasCalledSet := true, durationCol := some "T", eventCol := some none,
         weightsCol := some none, nExamples := some 3, durations := some [1, 2, 3],
         eventObserved := some [true, true, true], weights := some [1, 1, 1],
         normStd := some [1], hazardIndex := some [1, 2, 3],
         cumulativeHazards := some [[1/2], [-1/2], [-1/2]],
         cumulativeVariance := some [[1/4], [5/4], [5/4]],
         predictedHazards := some [-1/2, 1/2, 0] }, none) := by
    norm_num [fitRun, preprocessDataframe, extractTEW, sortByCol, popCol, popColNames,
      popRows, popRow, colVal, weightChecks, adjustNormStd, normalizeCols, scaleColsInv,
      fitModel, fitModelToDataBatch, uniqueDeathTimes, maskSelect,
      List.dedup_cons_of_not_mem, List.insertionSort, List.orderedInsert, fitLoop,
      solveStep, stepExits, stepDeaths, zeroExited, countTrue, lrModel, enumFrom,
      transposeFuel, scaledIdent, addMat, addRows, matMulT, matVecL, dotL, invSmall,
      varianceRow, maskedSquareSum, scaleVec, List.replicate, cumsum, cumsumFrom,
      predictCumulativeHazard]
  refine ⟨?_, by rw [hrun], by rw [hrun], ?_⟩
  · constructor
    · norm_num [colVariances, colsOf, transposeFuel, sampleVar]
    · intro s hs
      rw [List.mem_singleton] at hs
      subst hs
      norm_num
  · intro h
    obtain ⟨⟨h1, -⟩, -⟩ := h
    exact absurd h1 (by norm_num)

/-- Claim C3 (amended). On every successful fit, the cumulative variance
matrix is entrywise non-negative and column-wise non-decreasing (each
increment is a sum of squares), and both properties survive the final
division of every row by the positive normalization vector `_norm_std`.
(The cumulative hazards carry no such guarantee: their increments have
arbitrary sign.) -/
theorem c3_variance_monotone (solver : Solver) (c1 c2 : ℚ) (X : List (List ℚ))
    (T : List ℚ) (E : List Bool) (w : List ℚ) (idx : List ℚ) (H V : List (List ℚ))
    (ws : List ConvWarning)
    (h : fitModel solver c1 c2 X T E w = some (idx, H, V, ws)) :
    matNonneg V ∧ colsNondecreasing V ∧
    ∀ σ : List ℚ, (∀ s ∈ σ, 0 < s) →
      matNonneg (scaleColsInv σ V) ∧ colsNondecreasing (scaleColsInv σ V) := by
  obtain ⟨-, -, -, h4, h5⟩ := fitModel_spec _ _ _ _ _ _ _ _ _ _ _ h
  exact ⟨h4, h5, fun σ hσ =>
    ⟨matNonneg_scale (fun s hs => le_of_lt (hσ s hs)) h4, colsNondecreasing_scale hσ h5⟩⟩

theorem c3_variance_monotone_witness :
    matNonneg [[1/4], [5/4], [5/4]] ∧ colsNondecreasing [[1/4], [5/4], [5/4]] ∧
    ∀ σ : List ℚ, (∀ s ∈ σ, 0 < s) →
      matNonneg (scaleColsInv σ [[1/4], [5/4], [5/4]]) ∧
      colsNondecreasing (scaleColsInv σ [[1/4], [5/4], [5/4]]) :=
  c3_variance_monotone lrModel 0 0 [[1], [-1], [0]] [1, 2, 3] [true, true, true] [1, 1, 1]
    [1, 2, 3] [[1/2], [-1/2], [-1/2]] [[1/4], [5/4], [5/4]] [⟨2, 3⟩] (by
      norm_num [fitModel, fitModelToDataBatch, uniqueDeathTimes, maskSelect,
        List.dedup_cons_of_not_mem, List.insertionSort, List.orderedInsert, fitLoop,
        solveStep, stepExits, stepDeaths, zeroExited, countTrue, lrModel, enumFrom,
        transposeFuel, scaledIdent, addMat, addRows, matMulT, matVecL, dotL, invSmall,
        varianceRow, maskedSquareSum, scaleVec, List.replicate, cumsum, cumsumFrom])

/-- Claim C4 (confirmed). On every successful run of the fitting loop, the
number of executed steps equals `stopSteps`: the loop halts at the end of
step `i` exactly when `3 * (d - 1) ≥ n - total_observed_exits` there, where
`total_observed_exits` has accumulated the exit counts of earlier steps
only (the check precedes the accumulation of the current step's exits);
steps after the stop are never executed. -/
theorem c4_early_stop (solver : Solver) (c1 c2 : ℚ) (X : List (List ℚ)) (T : List ℚ)
    (E : List Bool) (hs vs : List (List ℚ)) (ws : List ConvWarning)
    (h : fitLoop solver c1 c2 T E X.length (X.headD []).length
        (enumFrom 0 (uniqueDeathTimes T E)) X
        (List.replicate (X.headD []).length 0) none 0 = some (hs, vs, ws)) :
    hs.length = stopSteps X.length (X.headD []).length 0
      ((uniqueDeathTimes T E).map (fun t => countMatches t T)) := by
  have h1 := (fitLoop_spec _ _ _ _ _ _ _ _ _ _ _ _ _ _ _ h).1
  rwa [enumFrom_map_counts] at h1

theorem c4_early_stop_witness :
    ([[1, -1]] : List (List ℚ)).length = stopSteps 3 2 0
      ((uniqueDeathTimes [1, 2, 3] [true, true, true]).map
        (fun t => countMatches t [1, 2, 3])) :=
  c4_early_stop lrModel 0 0 [[1, 0], [1, 1], [1, 1]] [1, 2, 3] [true, true, true]
    [[1, -1]] [[1, 1]] [] (by
      norm_num [uniqueDeathTimes, maskSelect, List.dedup_cons_of_not_mem,
        List.insertionSort, List.orderedInsert, fitLoop, solveStep, stepExits, stepDeaths,
        zeroExited, countTrue, lrModel, enumFrom, transposeFuel, scaledIdent, addMat,
        addRows, matMulT, matVecL, dotL, invSmall, varianceRow, maskedSquareSum, scaleVec,
        List.replicate])

/-- Claim C5 (counterexample). Fitting the C3 dataset (single covariate
`1, -1, 0`, no intercept) yields `cumulative_hazards_ = [[1/2], [-1/2], [-1/2]]`;
for the individual with covariate `1`, `predict_survival_function` is
`[exp(-1/2), exp(1/2), exp(1/2)]`: its second value exceeds `1` (cumulative
hazard is negative there) and the curve INCREASES from `exp(-1/2)` to
`exp(1/2)`, refuting both the `[0, 1]` range and the non-increase. The
elementwise `exp(−·)` relation itself holds (see the amended theorem). -/
theorem c5_counterexample :
    (fitRun false lrModel 0 0 [1] {} ⟨["T", "x"], [[1, 1], [2, -1], [3, 0]]⟩
      "T" none none).1.cumulativeHazards = some [[1/2], [-1/2], [-1/2]] ∧
    predictSurvivalFunction false [[1/2], [-1/2], [-1/2]] [[1]] =
      [[Real.exp (-(1/2 : ℝ))], [Real.exp (1/2 : ℝ)], [Real.exp (1/2 : ℝ)]] ∧
    1 < Real.exp (1/2 : ℝ) ∧
    Real.exp (-(1/2 : ℝ)) < Real.exp (1/2 : ℝ) := by
  refine ⟨?_, ?_, Real.one_lt_exp_iff.mpr (by norm_num),
    Real.exp_lt_exp.mpr (by norm_num)⟩
  · have hrun : fitRun false lrModel 0 0 [1] {} ⟨["T", "x"], [[1, 1], [2, -1], [3, 0]]⟩
        "T" none none =
        ({ timeFitWasCalledSet := true, durationCol := some "T", eventCol := some none,
           weightsCol := some none, nExamples := some 3, durations := some [1, 2, 3],
           eventObserved := some [true, true, true], weights := some [1, 1, 1],
           normStd := some [1], hazardIndex := some [1, 2, 3],
           cumulativeHazards := some [[1/2], [-1/2], [-1/2]],
           cumulativeVariance := some [[1/4], [5/4], [5/4]],
           predictedHazards := some [-1/2, 1/2, 0] }, none) := by
      norm_num [fitRun, preprocessDataframe, extractTEW, sortByCol, popCol, popColNames,
        popRows, popRow, colVal, weightChecks, adjustNormStd, normalizeCols, scaleColsInv,
        fitModel, fitModelToDataBatch, uniqueDeathTimes, maskSelect,
        List.dedup_cons_of_not_mem, List.insertionSort, List.orderedInsert, fitLoop,
        solveStep, stepExits, stepDeaths, zeroExited, countTrue, lrModel, enumFrom,
        transposeFuel, scaledIdent, addMat, addRows, matMulT, matVecL, dotL, invSmall,
        varianceRow, maskedSquareSum, scaleVec, List.replicate, cumsum, cumsumFrom,
        predictCumulativeHazard]
    rw [hrun]
  · norm_num [predictSurvivalFunction, predictCumulativeHazard, dotL]

/-- Claim C5 (amended). `predict_survival_function` equals
`exp(−predict_cumulative_hazard)` elementwise and its values are strictly
positive; they lie in `[0, 1]` and each individual's curve is non-increasing
PROVIDED the individual's predicted cumulative-hazard curve is entrywise
non-negative resp. column-wise non-decreasing — guarantees the fitted model
does not supply in general. -/
theorem c5_survival (fi : Bool) (H Xn : List (List ℚ)) :
    predictSurvivalFunction fi H Xn =
      (predictCumulativeHazard fi H Xn).map
        (fun row => row.map (fun q : ℚ => Real.exp (-(q : ℝ)))) ∧
    (∀ row ∈ predictSurvivalFunction fi H Xn, ∀ x ∈ row, 0 < x) ∧
    ((∀ row ∈ predictCumulativeHazard fi H Xn, ∀ q ∈ row, 0 ≤ q) →
      ∀ row ∈ predictSurvivalFunction fi H Xn, ∀ x ∈ row, x ≤ 1) ∧
    (colsNondecreasing (predictCumulativeHazard fi H Xn) →
      colsNonincreasing (predictSurvivalFunction fi H Xn)) := by
  refine ⟨rfl, ?_, ?_, ?_⟩
  · intro row hrow x hx
    simp only [predictSurvivalFunction, List.mem_map] at hrow
    obtain ⟨row0, -, rfl⟩ := hrow
    simp only [List.mem_map] at hx
    obtain ⟨q, -, rfl⟩ := hx
    exact Real.exp_pos _
  · intro hH row hrow x hx
    rw [show predictSurvivalFunction fi H Xn = (predictCumulativeHazard fi H Xn).map
      (fun row => row.map (fun q : ℚ => Real.exp (-(q : ℝ)))) from rfl] at hrow
    obtain ⟨row0, hrow0, hmap⟩ := List.mem_map.mp hrow
    subst hmap
    obtain ⟨q, hq, hxq⟩ := List.mem_map.mp hx
    subst hxq
    have h0 : (0 : ℝ) ≤ (q : ℝ) := by exact_mod_cast hH row0 hrow0 q hq
    exact Real.exp_le_one_iff.mpr (by linarith)
  · exact colsNonincreasing_expNeg

theorem c5_survival_witness :
    (∀ row ∈ predictSurvivalFunction false [[1], [2]] [[1]], ∀ x ∈ row, 0 < x) ∧
    (∀ row ∈ predictSurvivalFunction false [[1], [2]] [[1]], ∀ x ∈ row, x ≤ 1) ∧
    colsNonincreasing (predictSurvivalFunction false [[1], [2]] [[1]]) := by
  obtain ⟨-, hpos, hle, hmono⟩ := c5_survival false [[1], [2]] [[1]]
  refine ⟨hpos, hle ?_, hmono ?_⟩
  · intro row hrow q hq
    simp only [predictCumulativeHazard, if_neg Bool.false_ne_true, List.map_cons,
      List.map_nil, List.mem_cons, List.mem_singleton] at hrow
    rcases hrow with rfl | rfl | h
    · rw [List.mem_singleton] at hq
      subst hq
      norm_num [dotL]
    · rw [List.mem_singleton] at hq
      subst hq
      norm_num [dotL]
    · exact absurd h (by simp)
  · show colsNondecreasing [[dotL [1] [1]], [dotL [2] [1]]]
    norm_num [colsNondecreasing, rowLE, dotL]

/-- Claim C6 (confirmed). Whenever preprocessing succeeds with every event
flag false, the fit computes an empty time index and zero-row cumulative
matrices, and assigns exactly those to the fitter's
`cumulative_hazards_` / `cumulative_variance_` attributes. (Line 163 of
`fit` then raises `IndexError` taking `.iloc[-1]` of the empty predicted
frame — after the claimed attributes are already set.) -/
theorem c6_all_censored (fi : Bool) (solver : Solver) (c1 c2 : ℚ) (σ : List ℚ)
    (s0 : FitterState) (df : Frame) (dc : String) (ec wc : Option String) (pre : PreOut)
    (hpre : preprocessDataframe fi dc ec wc df = Except.ok pre)
    (hE : ∀ b ∈ pre.E, b = false) :
    (fitRun fi solver c1 c2 σ s0 df dc ec wc).1.hazardIndex = some [] ∧
    (fitRun fi solver c1 c2 σ s0 df dc ec wc).1.cumulativeHazards = some [] ∧
    (fitRun fi solver c1 c2 σ s0 df dc ec wc).1.cumulativeVariance = some [] ∧
    (fitRun fi solver c1 c2 σ s0 df dc ec wc).2 =
      some (FitError.indexError "single positional indexer is out-of-bounds") := by
  have hudt : uniqueDeathTimes pre.T pre.E = [] := by
    rw [uniqueDeathTimes, maskSelect_eq_nil hE]
    rfl
  have hfm : fitModel solver c1 c2 (normalizeCols pre.X.rows (adjustNormStd fi σ))
      pre.T pre.E pre.W = some ([], [], [], []) := by
    simp [fitModel, fitModelToDataBatch, hudt, enumFrom, fitLoop, cumsum, cumsumFrom]
  simp [fitRun, hpre, hfm, scaleColsInv, predictCumulativeHazard]

theorem c6_all_censored_witness :
    (fitRun false lrModel 0 0 [1] {} ⟨["T", "E"], [[1, 0], [2, 0]]⟩
      "T" (some "E") none).1.hazardIndex = some [] ∧
    (fitRun false lrModel 0 0 [1] {} ⟨["T", "E"], [[1, 0], [2, 0]]⟩
      "T" (some "E") none).1.cumulativeHazards = some [] ∧
    (fitRun false lrModel 0 0 [1] {} ⟨["T", "E"], [[1, 0], [2, 0]]⟩
      "T" (some "E") none).1.cumulativeVariance = some [] ∧
    (fitRun false lrModel 0 0 [1] {} ⟨["T", "E"], [[1, 0], [2, 0]]⟩
      "T" (some "E") none).2 =
      some (FitError.indexError "single positional indexer is out-of-bounds") :=
  c6_all_censored false lrModel 0 0 [1] {} ⟨["T", "E"], [[1, 0], [2, 0]]⟩
    "T" (some "E") none ⟨⟨[], [[], []]⟩, [1, 2], [false, false], [1, 1], []⟩
    (by
      norm_num [preprocessDataframe, extractTEW, sortByCol, popCol, popColNames, popRows,
        popRow, colVal, weightChecks, List.replicate, List.any, List.insertionSort,
        List.orderedInsert])
    (by
      intro b hb
      rcases List.mem_cons.mp hb with rfl | hb
      · rfl
      · rw [List.mem_singleton] at hb
        exact hb)

/-- Claim C7 (counterexample). The dataset with weights column `W = [-1/2, 1]`
contains a negative weight, yet fitting raises `AttributeError` (the
non-integral-weights check at line 249 reads the never-assigned
`self.robust` BEFORE the positivity check at line 256 can raise its
`ValueError`). -/
theorem c7_counterexample :
    preprocessDataframe true "T" none (some "W")
      ⟨["T", "W", "x"], [[1, -(1/2), 5], [2, 1, 6]]⟩ =
      Except.error (FitError.attributeError "robust") ∧
    ∀ msg : String, preprocessDataframe true "T" none (some "W")
      ⟨["T", "W", "x"], [[1, -(1/2), 5], [2, 1, 6]]⟩ ≠
      Except.error (FitError.valueError msg) := by
  have hpre : preprocessDataframe true "T" none (some "W")
      ⟨["T", "W", "x"], [[1, -(1/2), 5], [2, 1, 6]]⟩ =
      Except.error (FitError.attributeError "robust") := by
    norm_num [preprocessDataframe, extractTEW, sortByCol, popCol, popColNames, popRows,
      popRow, colVal, weightChecks, robustLookup_eval, ratTrunc_negHalf,
      ratTrunc_one, List.any, List.insertionSort, List.orderedInsert]
  refine ⟨hpre, fun msg h => ?_⟩
  rw [hpre] at h
  exact absurd h (by simp)

/-- Claim C7 (amended). A weights column containing a zero or negative value
raises the positivity `ValueError` before any numeric fitting work — but
only when every weight is integer-valued; a non-integral weight instead
trips the `AttributeError` of the preceding `self.robust` check (claim
C10). On the error path no model state (`cumulative_hazards_` etc.) is
ever assigned. -/
theorem c7_integral_weights (fi : Bool) (dc : String) (ec : Option String) (wc : String)
    (df : Frame) (T Ev W : List ℚ) (X : Frame)
    (hex : extractTEW dc ec (some wc) df = Except.ok (T, Ev, W, X))
    (hint : ∀ w ∈ W, (ratTrunc w : ℚ) = w)
    (hbad : ∃ w ∈ W, w ≤ 0) :
    preprocessDataframe fi dc ec (some wc) df =
      Except.error (FitError.valueError
        ("values in weight column " ++ wc ++ " must be positive.")) ∧
    ∀ (solver : Solver) (c1 c2 : ℚ) (σ : List ℚ),
      (fitRun fi solver c1 c2 σ {} df dc ec (some wc)).1.cumulativeHazards = none ∧
      (fitRun fi solver c1 c2 σ {} df dc ec (some wc)).2 =
        some (FitError.valueError
          ("values in weight column " ++ wc ++ " must be positive.")) := by
  have h1 : W.any (fun w => if (ratTrunc w : ℚ) = w then false else true) = false := by
    rw [List.any_eq_false]
    intro w hw
    simp [hint w hw]
  have h2 : W.any (fun w => if w ≤ 0 then true else false) = true := by
    rw [List.any_eq_true]
    obtain ⟨w, hw, hw0⟩ := hbad
    exact ⟨w, hw, by simp [hw0]⟩
  have hwc : weightChecks (some wc) W = Except.error (FitError.valueError
      ("values in weight column " ++ wc ++ " must be positive.")) := by
    simp only [weightChecks, h1, h2]
  have hpre : preprocessDataframe fi dc ec (some wc) df =
      Except.error (FitError.valueError
        ("values in weight column " ++ wc ++ " must be positive.")) := by
    simp only [preprocessDataframe, hex, hwc]
  refine ⟨hpre, fun solver c1 c2 σ => ?_⟩
  rw [fitRun, hpre]
  exact ⟨rfl, rfl⟩

theorem c7_integral_weights_witness :
    preprocessDataframe false "T" none (some "W") ⟨["T", "W"], [[1, 0], [2, 1]]⟩ =
      Except.error (FitError.valueError "values in weight column W must be positive.") ∧
    ∀ (solver : Solver) (c1 c2 : ℚ) (σ : List ℚ),
      (fitRun false solver c1 c2 σ {} ⟨["T", "W"], [[1, 0], [2, 1]]⟩
        "T" none (some "W")).1.cumulativeHazards = none ∧
      (fitRun false solver c1 c2 σ {} ⟨["T", "W"], [[1, 0], [2, 1]]⟩
        "T" none (some "W")).2 =
        some (FitError.valueError "values in weight column W must be positive.") :=
  c7_integral_weights false "T" none "W" ⟨["T", "W"], [[1, 0], [2, 1]]⟩
    [1, 2] [1, 1] [0, 1] ⟨[], [[], []]⟩
    (by
      norm_num [extractTEW, sortByCol, popCol, popColNames, popRows, popRow, colVal,
        List.replicate, List.insertionSort, List.orderedInsert])
    (by
      intro w hw
      rcases List.mem_cons.mp hw with rfl | hw
      · rw [ratTrunc_zero]; rfl
      · rw [List.mem_singleton] at hw
        subst hw
        rw [ratTrunc_one]; rfl)
    ⟨0, by simp, le_refl 0⟩

/-- Claim C8 (counterexample). Calling `fit` on a dataset whose weights
column holds a non-positive (integral) value fails with the configuration
`ValueError` — but the bookkeeping attributes (`_time_fit_was_called`,
`duration_col`, `_n_examples`, …) have already been assigned at lines
131-139, so fitter state IS partially mutated before the failing check,
refuting the no-mutation part of the claim. -/
theorem c8_counterexample :
    (fitRun true lrModel 0 0 [1, 1] {} ⟨["T", "W", "x"], [[1, 0, 5], [2, 1, 6]]⟩
      "T" none (some "W")).2 =
      some (FitError.valueError "values in weight column W must be positive.") ∧
    (fitRun true lrModel 0 0 [1, 1] {} ⟨["T", "W", "x"], [[1, 0, 5], [2, 1, 6]]⟩
      "T" none (some "W")).1.durationCol = some "T" ∧
    (fitRun true lrModel 0 0 [1, 1] {} ⟨["T", "W", "x"], [[1, 0, 5], [2, 1, 6]]⟩
      "T" none (some "W")).1.nExamples = some 2 ∧
    (fitRun true lrModel 0 0 [1, 1] {} ⟨["T", "W", "x"], [[1, 0, 5], [2, 1, 6]]⟩
      "T" none (some "W")).1.timeFitWasCalledSet = true ∧
    ({} : FitterState).durationCol = none ∧
    ({} : FitterState).timeFitWasCalledSet = false := by
  have hrun : fitRun true lrModel 0 0 [1, 1] {} ⟨["T", "W", "x"], [[1, 0, 5], [2, 1, 6]]⟩
      "T" none (some "W") =
      ({ timeFitWasCalledSet := true, durationCol := some "T", eventCol := some none,
         weightsCol := some (some "W"), nExamples := some 2 },
       some (FitError.valueError "values in weight column W must be positive.")) := by
    norm_num [fitRun, preprocessDataframe, extractTEW, sortByCol, popCol, popColNames,
      popRows, popRow, colVal, weightChecks, ratTrunc_zero, ratTrunc_one, weightMsgW,
      List.any, List.insertionSort, List.orderedInsert]
  rw [hrun]
  exact ⟨rfl, rfl, rfl, rfl, rfl, rfl⟩

/-- Claim C8 (amended). Whenever preprocessing detects an error, `fit` on a
fresh fitter aborts at once with that error: none of the model state
(durations, normalization vector, index, cumulative matrices, predictions)
is ever assigned — but the bookkeeping attributes (`_time_fit_was_called`,
`duration_col`, `event_col`, `weights_col`, `_n_examples`) are mutated
before the validating checks run. -/
theorem c8_fail_fast (fi : Bool) (solver : Solver) (c1 c2 : ℚ) (σ : List ℚ) (df : Frame)
    (dc : String) (ec wc : Option String) (e : FitError)
    (herr : preprocessDataframe fi dc ec wc df = Except.error e) :
    fitRun fi solver c1 c2 σ {} df dc ec wc =
      ({ timeFitWasCalledSet := true, durationCol := some dc, eventCol := some ec,
         weightsCol := some wc, nExamples := some df.rows.length }, some e) := by
  rw [fitRun, herr]

theorem c8_fail_fast_witness :
    fitRun true lrModel 0 0 [1, 1] {} ⟨["T", "W", "x"], [[1, 0, 5], [2, 1, 6]]⟩
      "T" none (some "W") =
      ({ timeFitWasCalledSet := true, durationCol := some "T", eventCol := some none,
         weightsCol := some (some "W"), nExamples := some 2 },
       some (FitError.valueError "values in weight column W must be positive.")) :=
  c8_fail_fast true lrModel 0 0 [1, 1] ⟨["T", "W", "x"], [[1, 0, 5], [2, 1, 6]]⟩
    "T" none (some "W")
    (FitError.valueError "values in weight column W must be positive.")
    (by
      norm_num [preprocessDataframe, extractTEW, sortByCol, popCol, popColNames,
        popRows, popRow, colVal, weightChecks, ratTrunc_zero, ratTrunc_one, weightMsgW,
        List.any, List.insertionSort, List.orderedInsert])

/-- Claim C9 (confirmed). The weights vector never reaches the per-step
solver: for any two strictly positive integer-valued weight vectors the
batch fitting function and `_fit_model` return identical results — the
`weights` parameter (source line 180) is accepted and validated upstream
but never read by the loop. -/
theorem c9_weights_ignored (solver : Solver) (c1 c2 : ℚ) (X : List (List ℚ)) (T : List ℚ)
    (E : List Bool) (w1 w2 : List ℚ)
    (hw1 : ∀ w ∈ w1, 0 < w ∧ (ratTrunc w : ℚ) = w)
    (hw2 : ∀ w ∈ w2, 0 < w ∧ (ratTrunc w : ℚ) = w) :
    fitModelToDataBatch solver c1 c2 X T E w1 = fitModelToDataBatch solver c1 c2 X T E w2 ∧
    fitModel solver c1 c2 X T E w1 = fitModel solver c1 c2 X T E w2 :=
  ⟨rfl, rfl⟩

theorem c9_weights_ignored_witness :
    fitModelToDataBatch lrModel 0 0 [[1]] [1] [true] [1] =
      fitModelToDataBatch lrModel 0 0 [[1]] [1] [true] [2] ∧
    fitModel lrModel 0 0 [[1]] [1] [true] [1] = fitModel lrModel 0 0 [[1]] [1] [true] [2] :=
  c9_weights_ignored lrModel 0 0 [[1]] [1] [true] [1] [2]
    (by
      intro w hw
      rw [List.mem_singleton] at hw
      subst hw
      exact ⟨by norm_num, by rw [ratTrunc_one]; rfl⟩)
    (by
      intro w hw
      rw [List.mem_singleton] at hw
      subst hw
      exact ⟨by norm_num, by rw [ratTrunc_two]; rfl⟩)

/-- Claim C10 (confirmed). `robust` is not among the attributes the class
ever assigns, so for every dataset whose weights column holds a
non-integral value the weight check's `self.robust` read fails the whole
preprocessing with `AttributeError("robust")` — the intended
`StatisticalWarning` (and any successful result) is unreachable. -/
theorem c10_robust_attribute (fi : Bool) (dc : String) (ec : Option String) (wc : String)
    (df : Frame) (T Ev W : List ℚ) (X : Frame)
    (hex : extractTEW dc ec (some wc) df = Except.ok (T, Ev, W, X))
    (hni : ∃ w ∈ W, (ratTrunc w : ℚ) ≠ w) :
    "robust" ∉ fitterAssignedAttrs ∧
    preprocessDataframe fi dc ec (some wc) df =
      Except.error (FitError.attributeError "robust") ∧
    ∀ out : PreOut, preprocessDataframe fi dc ec (some wc) df ≠ Except.ok out := by
  have hmem : "robust" ∉ fitterAssignedAttrs := by
    simp [fitterAssignedAttrs]
  have hany : W.any (fun w => if (ratTrunc w : ℚ) = w then false else true) = true := by
    rw [List.any_eq_true]
    obtain ⟨w, hw, hne⟩ := hni
    exact ⟨w, hw, by simp [hne]⟩
  have hrob : robustLookup = Except.error (FitError.attributeError "robust") := by
    simp [robustLookup, hmem]
  have hwc : weightChecks (some wc) W =
      Except.error (FitError.attributeError "robust") := by
    simp only [weightChecks, hany, hrob]
  have hpre : preprocessDataframe fi dc ec (some wc) df =
      Except.error (FitError.attributeError "robust") := by
    simp only [preprocessDataframe, hex, hwc]
  refine ⟨hmem, hpre, fun out h => ?_⟩
  rw [hpre] at h
  exact absurd h (by simp)

theorem c10_robust_attribute_witness :
    "robust" ∉ fitterAssignedAttrs ∧
    preprocessDataframe true "T" none (some "W")
      ⟨["T", "W", "x"], [[1, -(1/2), 5], [2, 1, 6]]⟩ =
      Except.error (FitError.attributeError "robust") ∧
    ∀ out : PreOut, preprocessDataframe true "T" none (some "W")
      ⟨["T", "W", "x"], [[1, -(1/2), 5], [2, 1, 6]]⟩ ≠ Except.ok out :=
  c10_robust_attribute true "T" none "W" ⟨["T", "W", "x"], [[1, -(1/2), 5], [2, 1, 6]]⟩
    [1, 2] [1, 1] [-(1/2), 1] ⟨["x"], [[5], [6]]⟩
    (by
      norm_num [extractTEW, sortByCol, popCol, popColNames, popRows, popRow, colVal,
        List.replicate, List.insertionSort, List.orderedInsert])
    ⟨-(1/2), by simp, by rw [ratTrunc_negHalf]; norm_num⟩

end Aalen
